import Mathlib

/-!
# Verification of `script/transcribe_summarize.py`

Shallow embedding of the pure/dataflow core of the audio
transcription-and-summarization pipeline, together with theorems settling
the frozen specification claims.

The masking pass of the source is a sequence of Python `re.sub` calls, so
we first build a small executable regex engine with Python's
leftmost/greedy backtracking semantics, restricted to the constructs the
source patterns actually use (literals, character-class repetitions with
greedy bounds, prioritized alternation, one capture group).
-/

/-- Python's `\s` character class for `str` patterns (Unicode whitespace).
We enumerate the Unicode whitespace code points. -/
def pyIsSpace (c : Char) : Bool :=
  c == ' ' || c == '\t' || c == '\n' || c == '\r' || c == '\x0b' || c == '\x0c' ||
  decide (0x1c ≤ c.toNat ∧ c.toNat ≤ 0x1f) || c.toNat == 0x85 || c.toNat == 0xa0 ||
  c.toNat == 0x1680 || decide (0x2000 ≤ c.toNat ∧ c.toNat ≤ 0x200a) ||
  c.toNat == 0x2028 || c.toNat == 0x2029 || c.toNat == 0x202f ||
  c.toNat == 0x205f || c.toNat == 0x3000

/-- Python's `\d` on the decimal-digit ranges occurring in this program's
text domain (ASCII digits and full-width Japanese digits). -/
def pyIsDigit (c : Char) : Bool :=
  c.isDigit || decide ('０' ≤ c ∧ c ≤ '９')

/-- Regexes as used by `mask_sensitive_info` / `sanitize_filename`:
every repetition in the source patterns is over a single character class,
so repetition is carried directly by the `cls` constructor
(`cls p lo hi` = `[p]{lo,hi}`, `hi = none` meaning unbounded). -/
inductive RE where
  | eps
  | lit (s : List Char)
  | cls (p : Char → Bool) (lo : Nat) (hi : Option Nat)
  | alt2 (a b : RE)
  | seq2 (a b : RE)
  | grp (r : RE)

/-- Length of the maximal prefix of `l` all of whose characters satisfy `p`
(the maximal amount a greedy class repetition can consume). -/
def classRun (p : Char → Bool) : List Char → Nat
  | [] => 0
  | c :: cs => if p c then classRun p cs + 1 else 0

/-- Greedy backtracking over repetition counts: try `k n`, `k (n-1)`, …,
`k lo` in that order (Python's greedy semantics tries the largest count
first and backtracks downwards). -/
def tryFrom (k : Nat → Option α) (lo : Nat) : Nat → Option α
  | 0 => if lo = 0 then k 0 else none
  | n + 1 => if n + 1 < lo then none else ((k (n + 1)).orElse fun _ => tryFrom k lo n)

/-- CPS backtracking matcher with Python's priority order: the continuation
`k` receives the remaining input and the current capture of group 1.
The first success in backtracking order is returned, which is exactly the
match Python's engine produces at a fixed starting position. -/
def mrun : RE → List Char → Option (List Char) →
    (List Char → Option (List Char) → Option (List Char × Option (List Char))) →
    Option (List Char × Option (List Char))
  | .eps, s, cap, k => k s cap
  | .lit l, s, cap, k => if l.isPrefixOf s then k (s.drop l.length) cap else none
  | .cls p lo hi, s, cap, k =>
      let run := classRun p s
      let top := match hi with | some h => min h run | none => run
      tryFrom (fun n => k (s.drop n) cap) lo top
  | .alt2 a b, s, cap, k => (mrun a s cap k).orElse fun _ => mrun b s cap k
  | .seq2 a b, s, cap, k => mrun a s cap fun s' c' => mrun b s' c' k
  | .grp r, s, cap, k => mrun r s cap fun s' _ => k s' (some (s.take (s.length - s'.length)))

/-- Attempt a match of `r` at the start of `s`; on success return the
number of consumed characters and the capture of group 1. -/
def matchAt (r : RE) (s : List Char) : Option (Nat × Option (List Char)) :=
  match mrun r s none (fun s' cap => some (s', cap)) with
  | none => none
  | some (s', cap) => some (s.length - s'.length, cap)

/-- One pass of Python `re.subn`: scan left to right, replace each
leftmost non-overlapping match (none of the source patterns can match the
empty string, but the empty-match case advances by one character so the
function is total for any pattern).  Returns the rewritten text and the
number of substitutions performed.  `fuel` bounds the recursion; it is
instantiated with `length + 1`, which suffices because every step consumes
at least one input character. -/
def subAuxN (r : RE) (repl : Option (List Char) → List Char) :
    Nat → List Char → List Char × Nat
  | 0, s => (s, 0)
  | fuel + 1, s =>
    match matchAt r s with
    | some (n, cap) =>
      if n = 0 then
        match s with
        | [] => (repl cap, 1)
        | c :: rest =>
          (repl cap ++ c :: (subAuxN r repl fuel rest).1, (subAuxN r repl fuel rest).2 + 1)
      else
        (repl cap ++ (subAuxN r repl fuel (s.drop n)).1, (subAuxN r repl fuel (s.drop n)).2 + 1)
    | none =>
      match s with
      | [] => ([], 0)
      | c :: rest => (c :: (subAuxN r repl fuel rest).1, (subAuxN r repl fuel rest).2)

/-- Full `re.subn(r, repl, s)`. -/
def pySubN (r : RE) (repl : Option (List Char) → List Char) (s : List Char) :
    List Char × Nat :=
  subAuxN r repl (s.length + 1) s

/-- Full `re.sub(r, repl, s)`. -/
def pySub (r : RE) (repl : Option (List Char) → List Char) (s : List Char) : List Char :=
  (pySubN r repl s).1

/-- Build a literal regex from a string. -/
def RE.str (s : String) : RE := .lit s.data

/-- Sequence a list of regexes. -/
def RE.seqs (l : List RE) : RE := l.foldr .seq2 .eps

/-! ## The masking rules of `mask_sensitive_info` (source lines 31–74) -/

/-- Class `\S` — any non-whitespace character. -/
def reNonSpace : Char → Bool := fun c => !pyIsSpace c

/-- Class `[-\s]` — hyphen or whitespace. -/
def dashSpace : Char → Bool := fun c => c == '-' || pyIsSpace c

/-- Class `[はがの:：\s]` — the keyword/value separator class. -/
def kwSep : Char → Bool := fun c =>
  c == 'は' || c == 'が' || c == 'の' || c == ':' || c == '：' || pyIsSpace c

/-- Class `.` — any character except newline (no DOTALL flag in the source). -/
def anyNoNL : Char → Bool := fun c => c != '\n'

/-- Email rule `\S+@\S+\.\S+`. -/
def reEmail : RE :=
  .seqs [.cls reNonSpace 1 none, .str "@", .cls reNonSpace 1 none, .str ".",
         .cls reNonSpace 1 none]

/-- Card-number rule `\d{4}[-\s]?\d{4}[-\s]?\d{4}[-\s]?\d{4}`. -/
def reCard : RE :=
  .seqs [.cls pyIsDigit 4 (some 4), .cls dashSpace 0 (some 1),
         .cls pyIsDigit 4 (some 4), .cls dashSpace 0 (some 1),
         .cls pyIsDigit 4 (some 4), .cls dashSpace 0 (some 1),
         .cls pyIsDigit 4 (some 4)]

/-- Phone-number rule `0\d{1,4}[-\s]?\d{1,4}[-\s]?\d{3,4}`. -/
def rePhone : RE :=
  .seqs [.str "0", .cls pyIsDigit 1 (some 4), .cls dashSpace 0 (some 1),
         .cls pyIsDigit 1 (some 4), .cls dashSpace 0 (some 1),
         .cls pyIsDigit 3 (some 4)]

/-- Security-code rule `(セキュリティコード|セキュリティーコード|CVV|CVC)[はがの:：\s]*\d{3,4}`. -/
def reSecCode : RE :=
  .seqs [.grp (.alt2 (.str "セキュリティコード")
           (.alt2 (.str "セキュリティーコード") (.alt2 (.str "CVV") (.str "CVC")))),
         .cls kwSep 0 none, .cls pyIsDigit 3 (some 4)]

/-- Account-number rule `(口座番号|口座)[はがの:：\s]*\d{4,}`. -/
def reAccount : RE :=
  .seqs [.grp (.alt2 (.str "口座番号") (.str "口座")),
         .cls kwSep 0 none, .cls pyIsDigit 4 none]

/-- Password rule `(パスワード|暗証番号|PIN)[はがの:：\s]*\S+`. -/
def rePassword : RE :=
  .seqs [.grp (.alt2 (.str "パスワード") (.alt2 (.str "暗証番号") (.str "PIN"))),
         .cls kwSep 0 none, .cls reNonSpace 1 none]

/-- Address rule `(北海道|東京都|(?:京都|大阪)府|.{2,3}県)\S{2,}`
(the inner non-capturing alternation is flattened into the literal
alternatives `京都府`/`大阪府`, preserving Python's priority order). -/
def reAddress : RE :=
  .seqs [.grp (.alt2 (.str "北海道")
           (.alt2 (.str "東京都")
             (.alt2 (.str "京都府")
               (.alt2 (.str "大阪府")
                 (.seqs [.cls anyNoNL 2 (some 3), .str "県"]))))),
         .cls reNonSpace 2 none]

/-- Name rule `(名前[はがの:：\s]*)\S+` (the group includes the
separators here, unlike the keyword rules above). -/
def reName : RE :=
  .seqs [.grp (.seqs [.str "名前", .cls kwSep 0 none]), .cls reNonSpace 1 none]

/-- The literal placeholder `[MASKED]`. -/
def MASKED : List Char := "[MASKED]".data

/-- The ordered rules of `mask_sensitive_info` with their replacement
functions: `'[MASKED]'` for the plain rules and `r'\1[MASKED]'`
(captured group followed by the placeholder) for the keyword rules. -/
def maskRules : List (RE × (Option (List Char) → List Char)) :=
  [ (reEmail, fun _ => MASKED),
    (reCard, fun _ => MASKED),
    (rePhone, fun _ => MASKED),
    (reSecCode, fun c => c.getD [] ++ MASKED),
    (reAccount, fun c => c.getD [] ++ MASKED),
    (rePassword, fun c => c.getD [] ++ MASKED),
    (reAddress, fun _ => MASKED),
    (reName, fun c => c.getD [] ++ MASKED) ]

/-- Function `mask_sensitive_info` (source lines 31–74): apply the eight `re.sub`
rules in source order. -/
def mask_sensitive_info (t : String) : String :=
  String.mk (maskRules.foldl (fun s rr => pySub rr.1 rr.2 s) t.data)

/-- Function `mask_sensitive_info` instrumented with the total number of
substitutions performed across the eight rules (as `re.subn` would
report); this formalizes the claim's "number of replacements the masking
pass performed". -/
def maskWithCount (t : String) : String × Nat :=
  let r := maskRules.foldl (fun acc rr =>
    ((pySubN rr.1 rr.2 acc.1).1, acc.2 + (pySubN rr.1 rr.2 acc.1).2)) (t.data, 0)
  (String.mk r.1, r.2)

/-- Python `str.count(sub)` — number of non-overlapping occurrences,
scanning left to right (used by `main` as
`text_for_llm.count("[MASKED]")`). -/
def countSub (pat : List Char) : Nat → List Char → Nat
  | 0, _ => 0
  | fuel + 1, s =>
    if pat.isPrefixOf s then 1 + countSub pat fuel (s.drop pat.length)
    else
      match s with
      | [] => 0
      | _ :: rest => countSub pat fuel rest

/-- Python `s.count(pat)` for strings. -/
def pyCount (s pat : String) : Nat := countSub pat.data (s.data.length + 1) s.data

/-! ## Filename sanitization (`sanitize_filename`, source lines 156–169) -/

/-- Constant `MAX_FILENAME_LENGTH = 50` (source line 24). -/
def MAX_FILENAME_LENGTH : Nat := 50

/-- The path-illegal characters removed by `re.sub(r'[\\/:*?"<>|]', "", text)`. -/
def illegalFilenameChar (c : Char) : Bool :=
  c == '\\' || c == '/' || c == ':' || c == '*' || c == '?' || c == '"' ||
  c == '<' || c == '>' || c == '|'

/-- Class `[_\-]` — the separator class of `re.sub(r"[_\-]{2,}", "_", text)`. -/
def sepChar (c : Char) : Bool := c == '_' || c == '-'

/-- The characters stripped by `text.strip("_- ")`. -/
def stripSepChar (c : Char) : Bool := c == '_' || c == '-' || c == ' '

/-- Python `str.strip` from the left for a character set. -/
def pyStripLeft (p : Char → Bool) (l : List Char) : List Char := l.dropWhile p

/-- Python `str.strip` from the right for a character set. -/
def pyStripRight (p : Char → Bool) (l : List Char) : List Char :=
  (l.reverse.dropWhile p).reverse

/-- Python `str.strip` (both ends) for a character set. -/
def pyStrip (p : Char → Bool) (l : List Char) : List Char :=
  pyStripRight p (pyStripLeft p l)

/-- Pattern `[\\/:*?"<>|]` as a regex (single character, no repetition). -/
def ruleIllegal : RE := .cls illegalFilenameChar 1 (some 1)

/-- Pattern `[\s]+` as a regex. -/
def ruleWS : RE := .cls pyIsSpace 1 none

/-- Pattern `[_\-]{2,}` as a regex. -/
def ruleSepRun : RE := .cls sepChar 2 none

/-- Function `sanitize_filename` (source lines 156–169).  `none` models Python's
`None` argument; `if not filename_suggestion` is falsy for both `None`
and the empty string. -/
def sanitize_filename (filename_suggestion : Option String) : String :=
  match filename_suggestion with
  | none => "untitled_summary"
  | some fs =>
    if fs = "" then "untitled_summary"
    else
      let t1 := pyStrip pyIsSpace fs.data
      let t2 := pySub ruleIllegal (fun _ => []) t1
      let t3 := pySub ruleWS (fun _ => ['_']) t2
      let t4 := pySub ruleSepRun (fun _ => ['_']) t3
      let t5 := pyStrip stripSepChar t4
      let t6 := t5.take MAX_FILENAME_LENGTH
      if t6 = [] then "untitled_summary" else String.mk t6

/-! ## Chunk boundary generation (`transcribe_audio_gemini`, lines 253–297) -/

/-- Constant `CHUNK_MAX_DURATION_MS = 20 * 60 * 1000` (source line 22). -/
def CHUNK_MAX_DURATION_MS : Nat := 20 * 60 * 1000

/-- Constant `OVERLAP_MS = 1 * 60 * 1000` (source line 23). -/
def OVERLAP_MS : Nat := 1 * 60 * 1000

/-- The chunking `while` loop of `transcribe_audio_gemini`, recording each
chunk's `(start_ms, end_ms)`.  Durations are non-negative throughout the
source (`start_ms = max(0, end_ms - OVERLAP_MS)` and truncated `Nat`
subtraction agree), so `Nat` is a faithful carrier.  `fuel` bounds the
recursion; fuel-independence for `fuel ≥ d + 1` is proved below, which is
the termination statement for the loop. -/
def chunkLoop (d : Nat) : Nat → Nat → List (Nat × Nat)
  | 0, _ => []
  | fuel + 1, start =>
    if start < d then
      (start, min (start + CHUNK_MAX_DURATION_MS) d) ::
        (if min (start + CHUNK_MAX_DURATION_MS) d = d then []
         else if d ≤ min (start + CHUNK_MAX_DURATION_MS) d - OVERLAP_MS then []
         else chunkLoop d fuel (min (start + CHUNK_MAX_DURATION_MS) d - OVERLAP_MS))
    else []

/-- The chunk boundaries produced for an audio of duration `d` ms. -/
def chunks (d : Nat) : List (Nat × Nat) := chunkLoop d (d + 1) 0

/-- Merge step `"\n\n".join(filter(None, all_transcriptions))` (source line 297):
Python's `filter(None, …)` keeps only truthy (non-empty) strings. -/
def join_transcriptions (parts : List String) : String :=
  String.intercalate "\n\n" (parts.filter (fun s => s ≠ ""))

/-! ## Proofreading dispatch and document assembly -/

/-- The proofreading prompt built by `proofread_text` (source lines 331–339). -/
def proofread_prompt (text : String) : String :=
  "以下の文字起こしテキストを校正してください。\n- 誤字脱字を修正\n- 句読点を適切に追加\n" ++
  "- 明らかな聞き間違いを文脈から修正\n- 内容自体は変更しないこと\n" ++
  "- 校正後のテキストのみを出力してください\n\nテキスト:\n" ++ text

/-- Function `proofread_text` (source lines 326–354).  The backends are external
collaborators: `claude` models `call_claude_cli` (text in → text out) and
`gemini` models the Gemini call, `none` meaning an empty candidate list
(in which case the source falls back to the input text). -/
def proofread_text (text engine : String)
    (claude : String → String) (gemini : String → Option String) : String :=
  if engine = "none" then text
  else if engine = "claude" then claude (proofread_prompt text)
  else if engine = "gemini" then (gemini (proofread_prompt text)).getD text
  else text

/-- The document body written by `save_markdown` (source lines 396–403):
summary section, a proofread section only when the proofread text is
non-empty and differs from the transcript, then the transcript section,
joined by horizontal rules, with a trailing newline. -/
def save_markdown_content (transcription proofread summary : String) : String :=
  String.intercalate "\n\n---\n\n"
    (["## 要約\n\n" ++ summary] ++
     (if proofread ≠ "" ∧ proofread ≠ transcription
      then ["## 校正済みテキスト\n\n" ++ proofread] else []) ++
     ["## 文字起こし\n\n" ++ transcription]) ++ "\n"

/-- Data flow of `main`'s per-file steps 2–5 (source lines 594–633):
masking produces `text_for_llm`, proofreading runs on it, and
`save_markdown` receives the ORIGINAL transcription together with the
proofread result and the summary.  The summarizer is an external
collaborator, so the summary text is a parameter. -/
structure PipelineOut where
  text_for_llm : String
  proofread_result : String
  content : String

/-- See `PipelineOut`. -/
def pipeline_steps (transcription : String) (enable_masking : Bool)
    (proofread_engine : String) (claude : String → String)
    (gemini : String → Option String) (summary : String) : PipelineOut :=
  let text_for_llm :=
    if enable_masking then mask_sensitive_info transcription else transcription
  let proofread_result := proofread_text text_for_llm proofread_engine claude gemini
  { text_for_llm := text_for_llm
    proofread_result := proofread_result
    content := save_markdown_content transcription proofread_result summary }

/-! ## Remote artifact lifecycle (`transcribe_chunk_gemini`, lines 176–202,
and the direct path of `transcribe_audio_gemini`, lines 232–252) -/

/-- Remote API calls made by the Gemini transcription paths. -/
inductive ApiEvent where
  | upload (path : String)
  | generate (name : String)
  | delete (name : String)
deriving DecidableEq

/-- Function `transcribe_chunk_gemini`: upload, transcribe, delete — straight-line
code with NO try/finally.  `gen` is the outcome of
`model.generate_content`: `Except.error` models a raised exception (which
propagates before the `genai.delete_file` line runs), `Except.ok none`
models an empty candidate list (transcription text becomes `""`).
Returns the API events performed, paired with the outcome. -/
def transcribe_chunk_gemini (path name : String)
    (gen : Except String (Option String)) : List ApiEvent × Except String String :=
  match gen with
  | .error e => ([.upload path, .generate name], .error e)
  | .ok r => ([.upload path, .generate name, .delete name], .ok (r.getD ""))

/-- The direct (short-audio, cache-miss) path of `transcribe_audio_gemini`:
upload, transcribe, delete, then raise `ValueError` if the response had no
candidates (the delete has already happened in that case). -/
def transcribe_direct_gemini (path name : String)
    (gen : Except String (Option String)) : List ApiEvent × Except String String :=
  match gen with
  | .error e => ([.upload path, .generate name], .error e)
  | .ok (some text) => ([.upload path, .generate name, .delete name], .ok text)
  | .ok none =>
      ([.upload path, .generate name, .delete name],
       .error "Direct transcription failed or returned an empty response.")

/-! ## Per-file failure isolation (`main`, source lines 520–677) -/

/-- Python exceptions as relevant to the batch loop: `exc` is any
`Exception` subclass (caught by the source's `except Exception`
handlers); `exit` is `SystemExit` as raised by `sys.exit(1)` in
`call_claude_cli` (line 96) and `transcribe_audio_whisper` (line 311),
which `except Exception` does NOT catch. -/
inductive PyErr where
  | exc (msg : String)
  | exit (code : Nat)
deriving DecidableEq

/-- One line of the JSONL audit log. -/
structure LogEntry where
  source : String
  output : Option String
  status : String
  errorMessage : Option String
deriving DecidableEq

/-- The outcome of each externally-visible stage call for one file, used
to drive the control-flow model of `main`'s per-file try/except nest. -/
structure FileStages where
  transcription : Except PyErr String
  proofread : Except PyErr String
  promptAndSummary : Except PyErr String
  filenameGen : Except PyErr (Option String)
  saveMd : Except PyErr String
  moveFile : Except PyErr Unit

/-- Returns `true` unless the stage raised `SystemExit`. -/
def stageNoSysExit {α : Type} : Except PyErr α → Bool
  | .error (.exit _) => false
  | _ => true

/-- No stage of the file raised `SystemExit`. -/
def FileStages.noSysExit (st : FileStages) : Bool :=
  stageNoSysExit st.transcription && stageNoSysExit st.proofread &&
  stageNoSysExit st.promptAndSummary && stageNoSysExit st.filenameGen &&
  stageNoSysExit st.saveMd && stageNoSysExit st.moveFile

/-- The `try` block of source lines 613–669 (summarize, filename
generation, save, success log, move, cleanup), with its
`except Exception` handler writing a `summary_failure` entry, and the
inner move handler writing `move_to_done_failure`.  Result: log entries
appended, plus `some e` when an uncaught error escapes the per-file scope. -/
def summarizeBlock (name : String) (st : FileStages) :
    List LogEntry × Option PyErr :=
  match st.promptAndSummary with
  | .error (.exc e) => ([⟨name, none, "summary_failure", some e⟩], none)
  | .error (.exit c) => ([], some (.exit c))
  | .ok _ =>
    match st.filenameGen with
    | .error (.exc e) => ([⟨name, none, "summary_failure", some e⟩], none)
    | .error (.exit c) => ([], some (.exit c))
    | .ok _ =>
      match st.saveMd with
      | .error (.exc e) => ([⟨name, none, "summary_failure", some e⟩], none)
      | .error (.exit c) => ([], some (.exit c))
      | .ok outName =>
        match st.moveFile with
        | .error (.exc e) =>
            ([⟨name, some outName, "summary_success", none⟩,
              ⟨name, some outName, "move_to_done_failure", some e⟩], none)
        | .error (.exit c) => ([⟨name, some outName, "summary_success", none⟩], some (.exit c))
        | .ok _ => ([⟨name, some outName, "summary_success", none⟩], none)

/-- One iteration of the batch loop for one file: the transcription `try`
(lines 535–583) logs `transcribe_failure` and continues on `Exception`;
a proofreading `Exception` is caught locally with only a warning (lines
607–610, NO log entry); everything else is `summarizeBlock`.  `SystemExit`
is caught by none of the handlers and escapes. -/
def processFile (name : String) (st : FileStages) : List LogEntry × Option PyErr :=
  match st.transcription with
  | .error (.exc e) => ([⟨name, none, "transcribe_failure", some e⟩], none)
  | .error (.exit c) => ([], some (.exit c))
  | .ok _ =>
    match st.proofread with
    | .error (.exit c) => ([], some (.exit c))
    | _ => summarizeBlock name st

/-- The batch loop over the audio files (source line 520): each file is
processed in order; an escaping error aborts the whole loop, leaving the
remaining files unprocessed. -/
def mainLoop : List (String × FileStages) → List LogEntry × Option PyErr
  | [] => ([], none)
  | (n, st) :: rest =>
    match processFile n st with
    | (logs, some e) => (logs, some e)
    | (logs, none) =>
      ((logs ++ (mainLoop rest).1), (mainLoop rest).2)

/-! ## Collision-free output naming (`save_markdown`, lines 383–405) -/

/-- The `k`-th name probed by `save_markdown` for base name `base`:
`base.md`, then `base_1.md`, `base_2.md`, …. -/
def probeName (base : String) : Nat → String
  | 0 => base ++ ".md"
  | k + 1 => base ++ "_" ++ toString (k + 1) ++ ".md"

/-- The probing `while` loop of `save_markdown`: `ex` is the
filesystem-existence predicate for the output directory.  Returns `none`
when `fuel` iterations did not find a free name (the source loop would
still be running). -/
def probeLoop (ex : String → Bool) (base : String) : Nat → Nat → Option String
  | 0, _ => none
  | fuel + 1, k =>
    if ex (probeName base k) then probeLoop ex base fuel (k + 1)
    else some (probeName base k)

/-- The filename `save_markdown` writes under, for date prefix and
sanitized title (`base_name = f"{dateStamp}_{generated_filename_base}"`). -/
def save_markdown_filename (ex : String → Bool) (dateStamp title : String)
    (fuel : Nat) : Option String :=
  probeLoop ex (dateStamp ++ "_" ++ title) fuel 0

/-! ## Concrete stage-outcome configurations used in the batch-loop claims -/

/-- A file whose every stage succeeds. -/
def okStages : FileStages :=
  ⟨.ok "transcript", .ok "proofread", .ok "summary", .ok (some "title"),
   .ok "out.md", .ok ()⟩

/-- A file whose summarization stage raises an ordinary `Exception`. -/
def excStages : FileStages :=
  ⟨.ok "transcript", .ok "proofread", .error (.exc "boom"), .ok (some "title"),
   .ok "out.md", .ok ()⟩

/-- A file whose summarization stage hits `sys.exit(1)` (the missing
`claude` CLI path of `call_claude_cli`, source line 96). -/
def exitStages : FileStages :=
  ⟨.ok "transcript", .ok "proofread", .error (.exit 1), .ok (some "title"),
   .ok "out.md", .ok ()⟩

/-! ## Helper lemmas -/

theorem intercalate_pair (s a b : String) :
    String.intercalate s [a, b] = a ++ s ++ b := rfl

theorem intercalate_triple (s a b c : String) :
    String.intercalate s [a, b, c] = a ++ s ++ b ++ s ++ c := rfl

/-- The document body always ends with the transcript section holding the
transcription argument verbatim. -/
theorem save_markdown_content_suffix (tr p su : String) :
    ∃ pre, save_markdown_content tr p su = pre ++ "## 文字起こし\n\n" ++ tr ++ "\n" := by
  unfold save_markdown_content
  by_cases h : p ≠ "" ∧ p ≠ tr
  · rw [if_pos h]
    refine ⟨"## 要約\n\n" ++ su ++ "\n\n---\n\n" ++ ("## 校正済みテキスト\n\n" ++ p) ++
      "\n\n---\n\n", ?_⟩
    simp only [List.singleton_append, List.cons_append, List.nil_append,
      intercalate_triple, String.append_assoc]
  · rw [if_neg h]
    refine ⟨"## 要約\n\n" ++ su ++ "\n\n---\n\n", ?_⟩
    simp only [List.singleton_append, List.cons_append, List.nil_append,
      intercalate_pair, String.append_assoc]

/-- If no stage of the summarize block raised `SystemExit`, nothing
escapes it. -/
theorem summarizeBlock_no_exit (name : String)
    (tr pr ps : Except PyErr String) (fg : Except PyErr (Option String))
    (sv : Except PyErr String) (mv : Except PyErr Unit)
    (h3 : stageNoSysExit ps = true) (h4 : stageNoSysExit fg = true)
    (h5 : stageNoSysExit sv = true) (h6 : stageNoSysExit mv = true) :
    (summarizeBlock name ⟨tr, pr, ps, fg, sv, mv⟩).2 = none := by
  cases ps with
  | error e =>
    cases e with
    | exc m => rfl
    | exit c => simp [stageNoSysExit] at h3
  | ok s =>
    cases fg with
    | error e =>
      cases e with
      | exc m => rfl
      | exit c => simp [stageNoSysExit] at h4
    | ok fn =>
      cases sv with
      | error e =>
        cases e with
        | exc m => rfl
        | exit c => simp [stageNoSysExit] at h5
      | ok out =>
        cases mv with
        | error e =>
          cases e with
          | exc m => rfl
          | exit c => simp [stageNoSysExit] at h6
        | ok u => rfl

/-- If no stage of a file raised `SystemExit`, nothing escapes the
per-file scope. -/
theorem processFile_no_exit (name : String) (st : FileStages)
    (h : st.noSysExit = true) : (processFile name st).2 = none := by
  obtain ⟨tr, pr, ps, fg, sv, mv⟩ := st
  simp only [FileStages.noSysExit, Bool.and_eq_true] at h
  obtain ⟨⟨⟨⟨⟨h1, h2⟩, h3⟩, h4⟩, h5⟩, h6⟩ := h
  cases tr with
  | error e =>
    cases e with
    | exc m => rfl
    | exit c => simp [stageNoSysExit] at h1
  | ok t =>
    cases pr with
    | error e =>
      cases e with
      | exc m => exact summarizeBlock_no_exit name _ _ ps fg sv mv h3 h4 h5 h6
      | exit c => simp [stageNoSysExit] at h2
    | ok p => exact summarizeBlock_no_exit name _ _ ps fg sv mv h3 h4 h5 h6

/-- If no file's stage raised `SystemExit`, the batch loop runs to the end. -/
theorem mainLoop_no_exit : ∀ files : List (String × FileStages),
    (∀ f ∈ files, FileStages.noSysExit f.2 = true) → (mainLoop files).2 = none := by
  intro files
  induction files with
  | nil => intro _; rfl
  | cons f rest ih =>
    intro h
    obtain ⟨n, st⟩ := f
    have hf : st.noSysExit = true := h (n, st) (List.mem_cons_self _ _)
    have hr := fun g hg => h g (List.mem_cons_of_mem _ hg)
    have hpf : (processFile n st).2 = none := processFile_no_exit n st hf
    unfold mainLoop
    rcases hp : processFile n st with ⟨logs, esc⟩
    rw [hp] at hpf
    simp only at hpf
    subst hpf
    simpa using ih hr

/-! ## Claims -/

/-- C1, counterexample: masking is NOT idempotent.  For the input
`"a@1234 5678 9012 3456.com"` the card rule produces `"a@[MASKED].com"`,
and a second masking pass rewrites that to `"[MASKED]"` because the
placeholder together with its neighbours matches the email rule — so the
placeholder IS matched (in part) by a masking rule, refuting the claim at
this concrete input. -/
theorem claim_C1_counterexample :
    mask_sensitive_info "a@1234 5678 9012 3456.com" = "a@[MASKED].com" ∧
    mask_sensitive_info (mask_sensitive_info "a@1234 5678 9012 3456.com") ≠
      mask_sensitive_info "a@1234 5678 9012 3456.com" := by decide

/-- C1, amended: the placeholder on its own never matches any masking
rule (`mask "[MASKED]" = "[MASKED]"`), and re-masking is a no-op when no
placeholder ends up adjacent to residual non-space text, e.g. for the
masked form of `"090-1234-5678 test@example.com"`; but idempotence fails
in general (see the counterexample). -/
theorem claim_C1_amended :
    mask_sensitive_info "[MASKED]" = "[MASKED]" ∧
    mask_sensitive_info (mask_sensitive_info "090-1234-5678 test@example.com") =
      mask_sensitive_info "090-1234-5678 test@example.com" := by decide

/-- C5, counterexample: when `model.generate_content` raises inside
`transcribe_chunk_gemini`, the function has NO try/finally, so
`genai.delete_file` is never called — the uploaded artifact is not
released on the failure path, refuting the claim. -/
theorem claim_C5_counterexample :
    transcribe_chunk_gemini "chunk_1.wav" "files/f1" (.error "API error") =
      ([.upload "chunk_1.wav", .generate "files/f1"], .error "API error") ∧
    ApiEvent.delete "files/f1" ∉
      (transcribe_chunk_gemini "chunk_1.wav" "files/f1" (.error "API error")).1 :=
  ⟨rfl, by decide⟩

/-- C5, amended: the uploaded artifact is released whenever the
transcription call returns (normally or with an empty candidate list —
including the direct path, where the release precedes the empty-response
`ValueError`); only a raising call skips the release. -/
theorem claim_C5_amended (path name : String) (gen : Except String (Option String))
    (r : Option String) (h : gen = .ok r) :
    ApiEvent.delete name ∈ (transcribe_chunk_gemini path name gen).1 ∧
    ApiEvent.delete name ∈ (transcribe_direct_gemini path name gen).1 := by
  subst h
  refine ⟨by simp [transcribe_chunk_gemini], ?_⟩
  cases r <;> simp [transcribe_direct_gemini]

/-- C5, witness for the amended theorem at a concrete successful call. -/
theorem claim_C5_witness :
    (Except.ok (some "text") : Except String (Option String)) = .ok (some "text") ∧
    (ApiEvent.delete "files/f1" ∈
       (transcribe_chunk_gemini "chunk_1.wav" "files/f1" (.ok (some "text"))).1 ∧
     ApiEvent.delete "files/f1" ∈
       (transcribe_direct_gemini "chunk_1.wav" "files/f1" (.ok (some "text"))).1) :=
  ⟨rfl, claim_C5_amended "chunk_1.wav" "files/f1" _ (some "text") rfl⟩

/-- C6, counterexample: a `sys.exit(1)` raised by a post-transcription
stage (here: summarization via a missing `claude` CLI) is `SystemExit`,
which `except Exception` does not catch — it escapes the per-file scope,
no log entry is appended for the failing file, and the following file is
never processed. -/
theorem claim_C6_counterexample :
    mainLoop [("a.wav", exitStages), ("b.wav", okStages)] = ([], some (.exit 1)) ∧
    processFile "b.wav" okStages =
      ([⟨"b.wav", some "out.md", "summary_success", none⟩], none) :=
  ⟨rfl, rfl⟩

/-- C6, amended: every `Exception`-derived failure in a per-file stage
after transcription is caught inside the per-file scope and processing
continues with the next file (a summarize/save failure appends a
`summary_failure` log entry; a proofread failure is only warned about);
but `SystemExit` (e.g. from the missing-`claude`-CLI path) escapes the
per-file boundary and aborts the batch. -/
theorem claim_C6_amended :
    (∀ name st, FileStages.noSysExit st = true → (processFile name st).2 = none) ∧
    (∀ files : List (String × FileStages),
      (∀ f ∈ files, FileStages.noSysExit f.2 = true) → (mainLoop files).2 = none) ∧
    (∀ name tr pr fg sv mv e, stageNoSysExit pr = true →
      (processFile name ⟨Except.ok tr, pr, Except.error (PyErr.exc e), fg, sv, mv⟩).1 =
        [⟨name, none, "summary_failure", some e⟩] ∧
      (processFile name ⟨Except.ok tr, pr, Except.error (PyErr.exc e), fg, sv, mv⟩).2 =
        none) := by
  refine ⟨processFile_no_exit, mainLoop_no_exit, ?_⟩
  intro name tr pr fg sv mv e hpr
  cases pr with
  | error err =>
    cases err with
    | exc m => exact ⟨rfl, rfl⟩
    | exit c => simp [stageNoSysExit] at hpr
  | ok p => exact ⟨rfl, rfl⟩

/-- C6, witness for the amended theorem: a concrete no-`SystemExit` batch
runs to completion, and a concrete summarize `Exception` is logged. -/
theorem claim_C6_witness :
    ((∀ f ∈ [("a.wav", okStages), ("c.wav", excStages)], FileStages.noSysExit f.2 = true) ∧
     (mainLoop [("a.wav", okStages), ("c.wav", excStages)]).2 = none) ∧
    (stageNoSysExit (Except.ok "proofread" : Except PyErr String) = true ∧
     (processFile "c.wav" ⟨Except.ok "transcript", Except.ok "proofread",
        Except.error (PyErr.exc "boom"), Except.ok (some "title"),
        Except.ok "out.md", Except.ok ()⟩).1 =
       [⟨"c.wav", none, "summary_failure", some "boom"⟩]) :=
  ⟨⟨by decide, claim_C6_amended.2.1 _ (by decide)⟩,
   ⟨rfl, (claim_C6_amended.2.2 "c.wav" "transcript" (Except.ok "proofread")
      (Except.ok (some "title")) (Except.ok "out.md") (Except.ok ()) "boom" rfl).1⟩⟩

/-- C7, counterexample: the count reported by `main` is
`text_for_llm.count("[MASKED]")`, which differs from the number of
replacements the masking pass performed. For the input `"[MASKED]"` no
rule matches (zero replacements), yet the reported count is 1. -/
theorem claim_C7_counterexample :
    (maskWithCount "[MASKED]").2 = 0 ∧
    pyCount (mask_sensitive_info "[MASKED]") "[MASKED]" = 1 := by decide

/-- C7, amended: the reported masked count is the number of
non-overlapping occurrences of the placeholder in the masked text, which
can differ from the number of replacements performed; in the claim's
scenario (a string containing `"090-1234-5678"` and
`"test@example.com"`) both sensitive items are replaced by the
placeholder, 2 replacements are performed, and the reported count is 2. -/
theorem claim_C7_amended :
    mask_sensitive_info "090-1234-5678 test@example.com" = "[MASKED] [MASKED]" ∧
    (maskWithCount "090-1234-5678 test@example.com").2 = 2 ∧
    pyCount (mask_sensitive_info "090-1234-5678 test@example.com") "[MASKED]" = 2 := by
  decide

/-- C9, counterexample: the merge step is
`"\n\n".join(filter(None, parts))`, so an empty chunk transcript is
DROPPED rather than joined: for `["a", "", "b"]` the result is
`"a\n\nb"`, not the one-separator-per-adjacent-pair join `"a\n\n\n\nb"`. -/
theorem claim_C9_counterexample :
    join_transcriptions ["a", "", "b"] = "a\n\nb" ∧
    join_transcriptions ["a", "", "b"] ≠ String.intercalate "\n\n" ["a", "", "b"] := by
  decide

/-- C9, amended: the returned transcript is the blank-line join of the
NON-EMPTY chunk transcripts in chunk order; when every chunk transcript
is non-empty this is exactly the join of all of them with one separator
per adjacent pair. -/
theorem claim_C9_amended (parts : List String) (h : ∀ s ∈ parts, s ≠ "") :
    join_transcriptions parts = String.intercalate "\n\n" parts := by
  unfold join_transcriptions
  congr 1
  rw [List.filter_eq_self]
  intro a ha
  simpa using h a ha

/-- C9, witness for the amended theorem on a concrete all-non-empty list. -/
theorem claim_C9_witness :
    (∀ s ∈ ["a", "b"], s ≠ "") ∧
    join_transcriptions ["a", "b"] = String.intercalate "\n\n" ["a", "b"] :=
  ⟨by decide, claim_C9_amended ["a", "b"] (by decide)⟩

/-- C10: the persisted document's transcript section contains the
ORIGINAL unmasked transcription verbatim — masking is applied only to
`text_for_llm` (the text handed to the proofreading/summarization
backends), while `save_markdown` receives the raw transcription. -/
theorem claim_C10_transcript_unmasked (t : String) (proofread_engine : String)
    (claude : String → String) (gemini : String → Option String) (summary : String) :
    (pipeline_steps t true proofread_engine claude gemini summary).text_for_llm =
      mask_sensitive_info t ∧
    ∃ pre, (pipeline_steps t true proofread_engine claude gemini summary).content =
      pre ++ "## 文字起こし\n\n" ++ t ++ "\n" :=
  ⟨rfl, save_markdown_content_suffix t _ summary⟩

/-- C3, counterexample: with proofread engine `"none"` and masking
enabled, `proofread_result` equals the MASKED text; `save_markdown`
includes the Proofread section whenever that text is non-empty and
differs from the raw transcription — so for a transcription containing
an email address the saved document does NOT omit the Proofread section,
refuting the claim. -/
theorem claim_C3_counterexample :
    (pipeline_steps "test@example.com" true "none" (fun _ => "") (fun _ => none)
        "S").proofread_result =
      (pipeline_steps "test@example.com" true "none" (fun _ => "") (fun _ => none)
        "S").text_for_llm ∧
    (pipeline_steps "test@example.com" true "none" (fun _ => "") (fun _ => none)
        "S").content =
      "## 要約\n\nS\n\n---\n\n## 校正済みテキスト\n\n[MASKED]\n\n---\n\n## 文字起こし\n\ntest@example.com\n" ∧
    (pipeline_steps "test@example.com" true "none" (fun _ => "") (fun _ => none)
        "S").content ≠
      "## 要約\n\nS\n\n---\n\n## 文字起こし\n\ntest@example.com\n" := by decide

/-- C3, amended: with proofread engine `"none"` the proofread output is
byte-identical to its input (the post-masking text), and the saved
document omits the Proofread section exactly when that text equals the
raw transcription (in particular whenever masking is disabled or made no
change); when masking did change the text, the document contains a
Proofread section holding the masked text. -/
theorem claim_C3_amended (t : String) (enable_masking : Bool)
    (claude : String → String) (gemini : String → Option String) (summary : String) :
    (pipeline_steps t enable_masking "none" claude gemini summary).proofread_result =
      (pipeline_steps t enable_masking "none" claude gemini summary).text_for_llm ∧
    ((pipeline_steps t enable_masking "none" claude gemini summary).text_for_llm = t →
      (pipeline_steps t enable_masking "none" claude gemini summary).content =
        String.intercalate "\n\n---\n\n"
          ["## 要約\n\n" ++ summary, "## 文字起こし\n\n" ++ t] ++ "\n") ∧
    (∀ m, (pipeline_steps t enable_masking "none" claude gemini summary).text_for_llm = m →
      m ≠ t → m ≠ "" →
      (pipeline_steps t enable_masking "none" claude gemini summary).content =
        String.intercalate "\n\n---\n\n"
          ["## 要約\n\n" ++ summary, "## 校正済みテキスト\n\n" ++ m,
           "## 文字起こし\n\n" ++ t] ++ "\n") := by
  refine ⟨rfl, ?_, ?_⟩
  · intro hm
    simp only [pipeline_steps, proofread_text, if_pos rfl] at hm ⊢
    rw [hm]
    unfold save_markdown_content
    rw [if_neg (by simp)]
    simp
  · intro m hm hne hemp
    simp only [pipeline_steps, proofread_text, if_pos rfl] at hm ⊢
    rw [hm]
    unfold save_markdown_content
    rw [if_pos ⟨hemp, hne⟩]
    simp

/-- C3, witness for the amended theorem: the no-masking instance where
the Proofread section is omitted, and the masked instance where it is
included. -/
theorem claim_C3_witness :
    ((pipeline_steps "x" false "none" (fun _ => "") (fun _ => none) "S").text_for_llm =
      "x" ∧
     (pipeline_steps "x" false "none" (fun _ => "") (fun _ => none) "S").content =
       String.intercalate "\n\n---\n\n"
         ["## 要約\n\n" ++ "S", "## 文字起こし\n\n" ++ "x"] ++ "\n") ∧
    (pipeline_steps "test@example.com" true "none" (fun _ => "") (fun _ => none)
        "S2").content =
      String.intercalate "\n\n---\n\n"
        ["## 要約\n\n" ++ "S2", "## 校正済みテキスト\n\n" ++ "[MASKED]",
         "## 文字起こし\n\n" ++ "test@example.com"] ++ "\n" :=
  ⟨⟨rfl, (claim_C3_amended "x" false (fun _ => "") (fun _ => none) "S").2.1 rfl⟩,
   (claim_C3_amended "test@example.com" true (fun _ => "") (fun _ => none) "S2").2.2
     "[MASKED]" (by decide) (by decide) (by decide)⟩

/-- C8, general probe correctness: a name returned by the probing loop of
`save_markdown` does not exist, and every earlier probe in the sequence
`base.md, base_1.md, base_2.md, …` does exist. -/
theorem probeLoop_first_free (ex : String → Bool) (base : String) :
    ∀ fuel k name, probeLoop ex base fuel k = some name →
      ∃ j, k ≤ j ∧ name = probeName base j ∧ ex (probeName base j) = false ∧
        ∀ i, k ≤ i → i < j → ex (probeName base i) = true := by
  intro fuel
  induction fuel with
  | zero => intro k name h; simp [probeLoop] at h
  | succ n ih =>
    intro k name h
    unfold probeLoop at h
    by_cases hx : ex (probeName base k) = true
    · rw [if_pos hx] at h
      obtain ⟨j, hkj, hname, hfree, hprev⟩ := ih (k + 1) name h
      refine ⟨j, by omega, hname, hfree, ?_⟩
      intro i hki hij
      rcases Nat.eq_or_lt_of_le hki with rfl | hlt
      · exact hx
      · exact hprev i hlt hij
    · rw [if_neg hx] at h
      refine ⟨k, Nat.le_refl k, (Option.some.inj h).symm, by simpa using hx, ?_⟩
      intro i hki hik
      omega

/-- C8, termination of the probe loop: if some probe index below the fuel
bound is free, the loop returns a name. -/
theorem probeLoop_term (ex : String → Bool) (base : String) :
    ∀ fuel k, (∃ j, k ≤ j ∧ j < k + fuel ∧ ex (probeName base j) = false) →
      (probeLoop ex base fuel k).isSome = true := by
  intro fuel
  induction fuel with
  | zero => intro k ⟨j, h1, h2, _⟩; omega
  | succ n ih =>
    intro k ⟨j, h1, h2, h3⟩
    unfold probeLoop
    by_cases hx : ex (probeName base k) = true
    · rw [if_pos hx]
      refine ih (k + 1) ⟨j, ?_, by omega, h3⟩
      rcases Nat.eq_or_lt_of_le h1 with rfl | hlt
      · rw [h3] at hx; exact absurd hx (by simp)
      · omega
    · rw [if_neg hx]; rfl

/-- C8: `save_markdown` never overwrites — a returned filename does not
exist, it is the first free name in the probe order
`<date>_<title>.md`, `<date>_<title>_1.md`, …, the loop terminates
whenever some probe is free, and writing twice with the same date and
title yields `20240101_title.md` then `20240101_title_1.md`. -/
theorem claim_C8_no_overwrite :
    (∀ (ex : String → Bool) (date title : String) (fuel : Nat) (name : String),
      save_markdown_filename ex date title fuel = some name →
      ex name = false ∧
      ∃ j, name = probeName (date ++ "_" ++ title) j ∧
        ∀ i, i < j → ex (probeName (date ++ "_" ++ title) i) = true) ∧
    (∀ (ex : String → Bool) (date title : String) (fuel : Nat),
      (∃ j, j < fuel ∧ ex (probeName (date ++ "_" ++ title) j) = false) →
      (save_markdown_filename ex date title fuel).isSome = true) ∧
    save_markdown_filename (fun _ => false) "20240101" "title" 3 =
      some "20240101_title.md" ∧
    save_markdown_filename (fun n => n == "20240101_title.md") "20240101" "title" 3 =
      some "20240101_title_1.md" := by
  refine ⟨?_, ?_, by decide, by decide⟩
  · intro ex date title fuel name h
    obtain ⟨j, _, hname, hfree, hprev⟩ := probeLoop_first_free ex _ fuel 0 name h
    subst hname
    exact ⟨hfree, j, rfl, fun i hij => hprev i (Nat.zero_le i) hij⟩
  · intro ex date title fuel ⟨j, hj, hfree⟩
    exact probeLoop_term ex _ fuel 0 ⟨j, Nat.zero_le j, by omega, hfree⟩

/-- C8, witness: the two-writes scenario run through the general
first-free theorem. -/
theorem claim_C8_witness :
    (save_markdown_filename (fun n => n == "20240101_title.md") "20240101" "title" 3 =
      some "20240101_title_1.md") ∧
    ((fun n => n == "20240101_title.md") "20240101_title_1.md" = false ∧
     ∃ j, "20240101_title_1.md" = probeName ("20240101" ++ "_" ++ "title") j ∧
       ∀ i, i < j →
         (fun n => n == "20240101_title.md") (probeName ("20240101" ++ "_" ++ "title") i) =
           true) :=
  ⟨by decide,
   claim_C8_no_overwrite.1 (fun n => n == "20240101_title.md") "20240101" "title" 3
     "20240101_title_1.md" (by decide)⟩

/-- C2, loop invariant: starting the chunk loop at any `start < d` with
enough fuel yields a non-empty chunk list whose head starts at `start`,
in which every chunk covers `[s, min(s + CHUNK_MAX, d))`, whose last
chunk ends exactly at `d`, and in which every pair of consecutive chunks
overlaps by exactly `OVERLAP_MS`. -/
theorem chunkLoop_spec (d : Nat) : ∀ fuel start, start < d → d - start ≤ fuel →
    chunkLoop d fuel start ≠ [] ∧
    (chunkLoop d fuel start).head? =
      some (start, min (start + CHUNK_MAX_DURATION_MS) d) ∧
    (∀ p ∈ chunkLoop d fuel start, p.2 = min (p.1 + CHUNK_MAX_DURATION_MS) d) ∧
    ((chunkLoop d fuel start).getLast?).map Prod.snd = some d ∧
    List.Chain' (fun a b : Nat × Nat => a.2 = b.1 + OVERLAP_MS)
      (chunkLoop d fuel start) := by
  intro fuel
  induction fuel with
  | zero => intro start h1 h2; omega
  | succ n ih =>
    intro start h1 h2
    have hOV : OVERLAP_MS < CHUNK_MAX_DURATION_MS := by decide
    have hOVpos : 0 < OVERLAP_MS := by decide
    by_cases he : min (start + CHUNK_MAX_DURATION_MS) d = d
    · simp only [chunkLoop, if_pos h1, if_pos he]
      refine ⟨by simp, rfl, ?_, ?_, ?_⟩
      · intro p hp
        simp only [List.mem_singleton] at hp
        subst hp
        rfl
      · simp [he]
      · simp
    · have hlt : start + CHUNK_MAX_DURATION_MS < d := by
        rcases Nat.le_total (start + CHUNK_MAX_DURATION_MS) d with h | h
        · have := Nat.min_eq_left h
          omega
        · have := Nat.min_eq_right h
          omega
      have hmin : min (start + CHUNK_MAX_DURATION_MS) d = start + CHUNK_MAX_DURATION_MS :=
        Nat.min_eq_left (Nat.le_of_lt hlt)
      have hs'lt : min (start + CHUNK_MAX_DURATION_MS) d - OVERLAP_MS < d := by omega
      have hcond : ¬ d ≤ min (start + CHUNK_MAX_DURATION_MS) d - OVERLAP_MS := by omega
      have hfuel : d - (min (start + CHUNK_MAX_DURATION_MS) d - OVERLAP_MS) ≤ n := by
        omega
      obtain ⟨hne, hhead, hcov, hlast, hchain⟩ :=
        ih (min (start + CHUNK_MAX_DURATION_MS) d - OVERLAP_MS) hs'lt hfuel
      simp only [chunkLoop, if_pos h1, if_neg he, if_neg hcond]
      refine ⟨by simp, rfl, ?_, ?_, ?_⟩
      · intro p hp
        rcases List.mem_cons.mp hp with rfl | hp
        · rfl
        · exact hcov p hp
      · rcases hl : chunkLoop d n (min (start + CHUNK_MAX_DURATION_MS) d - OVERLAP_MS)
          with _ | ⟨q, L⟩
        · exact absurd hl hne
        · rw [hl] at hlast
          rw [List.getLast?_cons_cons]
          exact hlast
      · rw [List.chain'_cons']
        refine ⟨?_, hchain⟩
        intro y hy
        rw [hhead] at hy
        simp only [Option.mem_def, Option.some.injEq] at hy
        subst hy
        simp only
        omega

/-- C2, termination: the chunk loop's result does not depend on the fuel
bound once the fuel covers the remaining duration — i.e. the source's
`while` loop terminates and `chunks d` is its output. -/
theorem chunkLoop_fuel_stable (d : Nat) :
    ∀ f₁ f₂ start, d - start ≤ f₁ → d - start ≤ f₂ →
      chunkLoop d f₁ start = chunkLoop d f₂ start := by
  intro f₁
  induction f₁ with
  | zero =>
    intro f₂ start h1 h2
    have hs : ¬ start < d := by omega
    cases f₂ with
    | zero => rfl
    | succ m => simp [chunkLoop, hs]
  | succ n ih =>
    intro f₂ start h1 h2
    have hOV : OVERLAP_MS < CHUNK_MAX_DURATION_MS := by decide
    by_cases hs : start < d
    · cases f₂ with
      | zero => omega
      | succ m =>
        simp only [chunkLoop, if_pos hs]
        by_cases he : min (start + CHUNK_MAX_DURATION_MS) d = d
        · rw [if_pos he, if_pos he]
        · have hlt : start + CHUNK_MAX_DURATION_MS < d := by
            rcases Nat.le_total (start + CHUNK_MAX_DURATION_MS) d with h | h
            · have := Nat.min_eq_left h
              omega
            · have := Nat.min_eq_right h
              omega
          have hmin : min (start + CHUNK_MAX_DURATION_MS) d =
              start + CHUNK_MAX_DURATION_MS := Nat.min_eq_left (Nat.le_of_lt hlt)
          have hcond : ¬ d ≤ min (start + CHUNK_MAX_DURATION_MS) d - OVERLAP_MS := by
            omega
          rw [if_neg he, if_neg he, if_neg hcond, if_neg hcond]
          exact congrArg _ (ih m _ (by omega) (by omega))
    · cases f₂ with
      | zero => simp [chunkLoop, hs]
      | succ m => simp [chunkLoop, hs]

/-- C2: for every duration `d > CHUNK_MAX_DURATION_MS` the generated
chunk list is non-empty, starts at `start_ms = 0`, every chunk covers
`[s, min(s + CHUNK_MAX_DURATION_MS, d))`, the last chunk ends exactly at
`d`, every pair of consecutive chunks overlaps by exactly `OVERLAP_MS`,
and the loop terminates (fuel-stability); in particular a 45-minute file
yields exactly the three chunks `[0,20)`, `[19,39)`, `[38,45)` in
minutes. -/
theorem claim_C2_chunk_boundaries :
    (∀ d, CHUNK_MAX_DURATION_MS < d →
      chunks d ≠ [] ∧
      (chunks d).head? = some (0, min (0 + CHUNK_MAX_DURATION_MS) d) ∧
      (∀ p ∈ chunks d, p.2 = min (p.1 + CHUNK_MAX_DURATION_MS) d) ∧
      ((chunks d).getLast?).map Prod.snd = some d ∧
      List.Chain' (fun a b : Nat × Nat => a.2 = b.1 + OVERLAP_MS) (chunks d) ∧
      (∀ fuel, d + 1 ≤ fuel → chunkLoop d fuel 0 = chunks d)) ∧
    chunks 2700000 = [(0, 1200000), (1140000, 2340000), (2280000, 2700000)] := by
  refine ⟨?_, by decide⟩
  intro d hd
  have hCM : 0 < CHUNK_MAX_DURATION_MS := by decide
  have h0 : (0:Nat) < d := by omega
  obtain ⟨hne, hhead, hcov, hlast, hchain⟩ := chunkLoop_spec d (d + 1) 0 h0 (by omega)
  refine ⟨hne, hhead, hcov, hlast, hchain, ?_⟩
  intro fuel hf
  exact chunkLoop_fuel_stable d fuel (d + 1) 0 (by omega) (by omega)

/-- C2, witness: the general theorem instantiated at the 45-minute
scenario duration. -/
theorem claim_C2_witness :
    CHUNK_MAX_DURATION_MS < 2700000 ∧
    (chunks 2700000 ≠ [] ∧
     (chunks 2700000).head? = some (0, min (0 + CHUNK_MAX_DURATION_MS) 2700000) ∧
     (∀ p ∈ chunks 2700000, p.2 = min (p.1 + CHUNK_MAX_DURATION_MS) 2700000) ∧
     ((chunks 2700000).getLast?).map Prod.snd = some 2700000 ∧
     List.Chain' (fun a b : Nat × Nat => a.2 = b.1 + OVERLAP_MS) (chunks 2700000) ∧
     (∀ fuel, 2700000 + 1 ≤ fuel → chunkLoop 2700000 fuel 0 = chunks 2700000)) :=
  ⟨by decide, claim_C2_chunk_boundaries.1 2700000 (by decide)⟩

/-- Backtracking over counts fails when even the largest count is below
the lower bound. -/
theorem tryFrom_of_lt {α : Type} (k : Nat → Option α) (lo top : Nat) (h : top < lo) :
    tryFrom k lo top = none := by
  cases top with
  | zero =>
    simp only [tryFrom]
    rw [if_neg (by omega)]
  | succ n =>
    simp only [tryFrom]
    rw [if_pos h]

/-- Backtracking over counts succeeds immediately when the greedy
(largest) count succeeds. -/
theorem tryFrom_of_hit {α : Type} (k : Nat → Option α) (lo top : Nat) (r : α)
    (h1 : lo ≤ top) (h2 : k top = some r) : tryFrom k lo top = some r := by
  cases top with
  | zero =>
    simp only [tryFrom]
    rw [if_pos (by omega), h2]
  | succ n =>
    simp only [tryFrom]
    rw [if_neg (by omega), h2]
    rfl

/-- A class run never exceeds the input length. -/
theorem classRun_le_length (p : Char → Bool) (l : List Char) :
    classRun p l ≤ l.length := by
  induction l with
  | nil => simp [classRun]
  | cons c t ih =>
    by_cases h : p c
    · simpa [classRun, h] using Nat.succ_le_succ ih
    · simp [classRun, h]

/-- Dropping the class run is dropping the matching prefix. -/
theorem drop_classRun (p : Char → Bool) (l : List Char) :
    l.drop (classRun p l) = l.dropWhile p := by
  induction l with
  | nil => rfl
  | cons c t ih =>
    by_cases h : p c
    · simp [classRun, h, List.dropWhile_cons, ih]
    · simp [classRun, h, List.dropWhile_cons]

/-- A single class repetition fails to match when the run is shorter than
the lower bound. -/
theorem matchAt_cls_of_run_lt (p : Char → Bool) (lo : Nat) (hi : Option Nat)
    (s : List Char) (h : classRun p s < lo) : matchAt (RE.cls p lo hi) s = none := by
  simp only [matchAt, mrun]
  cases hi with
  | none => rw [tryFrom_of_lt _ _ _ h]
  | some hb => rw [tryFrom_of_lt _ _ _ (by omega : min hb (classRun p s) < lo)]

/-- An unbounded class repetition at a position with a long-enough run
matches greedily, consuming exactly the run. -/
theorem matchAt_cls_unbounded (p : Char → Bool) (lo : Nat) (s : List Char)
    (h : lo ≤ classRun p s) :
    matchAt (RE.cls p lo none) s = some (classRun p s, none) := by
  simp only [matchAt, mrun]
  rw [tryFrom_of_hit _ lo (classRun p s) (s.drop (classRun p s), none) h rfl]
  simp only [List.length_drop, Option.some.injEq, Prod.mk.injEq, and_true]
  exact Nat.sub_sub_self (classRun_le_length p s)

/-- A `{1,1}` class repetition at a matching character consumes exactly
one character. -/
theorem matchAt_cls_one (p : Char → Bool) (c : Char) (rest : List Char)
    (h : p c = true) :
    matchAt (RE.cls p 1 (some 1)) (c :: rest) = some (1, none) := by
  simp only [matchAt, mrun]
  have hrun : classRun p (c :: rest) = classRun p rest + 1 := by simp [classRun, h]
  rw [hrun]
  rw [tryFrom_of_hit _ 1 (min 1 (classRun p rest + 1)) ((c :: rest).drop (min 1 (classRun p rest + 1)), none) (by omega) rfl]
  have hm : min 1 (classRun p rest + 1) = 1 := by omega
  rw [hm]
  simp

/-- Unfolding lemma for one successor step of the substitution scan. -/
theorem subAuxN_succ (r : RE) (repl : Option (List Char) → List Char) (n : Nat)
    (s : List Char) :
    subAuxN r repl (n + 1) s =
      match matchAt r s with
      | some (m, cap) =>
        if m = 0 then
          match s with
          | [] => (repl cap, 1)
          | c :: rest =>
            (repl cap ++ c :: (subAuxN r repl n rest).1, (subAuxN r repl n rest).2 + 1)
        else
          (repl cap ++ (subAuxN r repl n (s.drop m)).1,
           (subAuxN r repl n (s.drop m)).2 + 1)
      | none =>
        match s with
        | [] => ([], 0)
        | c :: rest => (c :: (subAuxN r repl n rest).1, (subAuxN r repl n rest).2) := rfl

/-- Every character of a substitution output with a constant replacement
comes from the input or from the replacement text. -/
theorem subAuxN_chars_subset (r : RE) (w : List Char) :
    ∀ fuel s c, c ∈ (subAuxN r (fun _ => w) fuel s).1 → c ∈ s ∨ c ∈ w := by
  intro fuel
  induction fuel with
  | zero => intro s c hc; exact Or.inl hc
  | succ n ih =>
    intro s c hc
    rw [subAuxN_succ] at hc
    rcases hm : matchAt r s with _ | ⟨m, cap⟩ <;> rw [hm] at hc <;> dsimp only at hc
    · cases s with
      | nil => simp at hc
      | cons c0 rest =>
        dsimp only at hc
        simp only [List.mem_cons] at hc
        rcases hc with rfl | hc
        · exact Or.inl (List.mem_cons_self _ _)
        · rcases ih rest c hc with h | h
          · exact Or.inl (List.mem_cons_of_mem _ h)
          · exact Or.inr h
    · by_cases hm0 : m = 0
      · subst hm0
        rw [if_pos rfl] at hc
        cases s with
        | nil => exact Or.inr hc
        | cons c0 rest =>
          dsimp only at hc
          simp only [List.mem_append, List.mem_cons] at hc
          rcases hc with h | rfl | hc
          · exact Or.inr h
          · exact Or.inl (List.mem_cons_self _ _)
          · rcases ih rest c hc with h | h
            · exact Or.inl (List.mem_cons_of_mem _ h)
            · exact Or.inr h
      · rw [if_neg hm0] at hc
        simp only [List.mem_append] at hc
        rcases hc with h | hc
        · exact Or.inr h
        · rcases ih (s.drop m) c hc with h | h
          · exact Or.inl (List.mem_of_mem_drop h)
          · exact Or.inr h

/-- Removing single illegal characters (`re.sub(r'[\\/:*?"<>|]', "", ·)`)
leaves no illegal character in the output. -/
theorem subAuxN_illegal_clean :
    ∀ fuel s, s.length < fuel →
      ∀ c ∈ (subAuxN ruleIllegal (fun _ => []) fuel s).1, illegalFilenameChar c = false := by
  intro fuel
  induction fuel with
  | zero => intro s h; omega
  | succ n ih =>
    intro s h c hc
    rw [subAuxN_succ] at hc
    cases s with
    | nil =>
      rw [show matchAt ruleIllegal [] = none from
        matchAt_cls_of_run_lt _ _ _ _ (by simp [classRun])] at hc
      dsimp only at hc
      simp at hc
    | cons c0 rest =>
      by_cases hp : illegalFilenameChar c0 = true
      · rw [show matchAt ruleIllegal (c0 :: rest) = some (1, none) from
          matchAt_cls_one _ c0 rest hp] at hc
        dsimp only at hc
        rw [if_neg (by omega)] at hc
        simp only [List.nil_append, List.drop_succ_cons, List.drop_zero] at hc
        exact ih rest (by simpa using h) c hc
      · rw [show matchAt ruleIllegal (c0 :: rest) = none from
          matchAt_cls_of_run_lt _ _ _ _ (by simp [classRun, hp])] at hc
        dsimp only at hc
        simp only [List.mem_cons] at hc
        rcases hc with rfl | hc
        · simpa using hp
        · exact ih rest (by simpa using h) c hc

/-- Collapsing whitespace runs (`re.sub(r"[\s]+", "_", ·)`) leaves no
whitespace in the output. -/
theorem subAuxN_ws_clean :
    ∀ fuel s, s.length < fuel →
      ∀ c ∈ (subAuxN ruleWS (fun _ => ['_']) fuel s).1, pyIsSpace c = false := by
  intro fuel
  induction fuel with
  | zero => intro s h; omega
  | succ n ih =>
    intro s h c hc
    rw [subAuxN_succ] at hc
    cases s with
    | nil =>
      rw [show matchAt ruleWS [] = none from
        matchAt_cls_of_run_lt _ _ _ _ (by simp [classRun])] at hc
      dsimp only at hc
      simp at hc
    | cons c0 rest =>
      by_cases hp : pyIsSpace c0 = true
      · have hrun : 1 ≤ classRun pyIsSpace (c0 :: rest) := by simp [classRun, hp]
        have hrpos : classRun pyIsSpace (c0 :: rest) ≠ 0 := by omega
        rw [show matchAt ruleWS (c0 :: rest) =
            some (classRun pyIsSpace (c0 :: rest), none) from
          matchAt_cls_unbounded _ 1 (c0 :: rest) hrun] at hc
        dsimp only at hc
        rw [if_neg hrpos] at hc
        simp only [List.cons_append, List.nil_append, List.mem_cons] at hc
        rcases hc with rfl | hc
        · decide
        · have hlen : ((c0 :: rest).drop (classRun pyIsSpace (c0 :: rest))).length < n := by
            have h1 := classRun_le_length pyIsSpace (c0 :: rest)
            simp only [List.length_drop]
            simp only [List.length_cons] at h h1 ⊢
            omega
          exact ih _ hlen c hc
      · rw [show matchAt ruleWS (c0 :: rest) = none from
          matchAt_cls_of_run_lt _ _ _ _ (by simp [classRun, hp])] at hc
        dsimp only at hc
        simp only [List.mem_cons] at hc
        rcases hc with rfl | hc
        · simpa using hp
        · exact ih rest (by simpa using h) c hc

/-- Heads of `dropWhile` outputs never satisfy the predicate. -/
theorem head_dropWhile_not (p : Char → Bool) :
    ∀ l : List Char, ∀ c, (l.dropWhile p).head? = some c → p c = false := by
  intro l
  induction l with
  | nil => intro c hc; simp at hc
  | cons c0 rest ih =>
    intro c hc
    by_cases hp : p c0 = true
    · rw [List.dropWhile_cons, if_pos hp] at hc
      exact ih c hc
    · rw [List.dropWhile_cons, if_neg hp] at hc
      simp only [List.head?_cons, Option.some.injEq] at hc
      subst hc
      simpa using hp

/-- Right-stripping decomposes the input as the result followed by the
stripped tail. -/
theorem pyStripRight_append (p : Char → Bool) (l : List Char) :
    pyStripRight p l ++ (l.reverse.takeWhile p).reverse = l := by
  unfold pyStripRight
  rw [← List.reverse_append, List.takeWhile_append_dropWhile, List.reverse_reverse]

/-- Characters of the right-strip are characters of the input. -/
theorem mem_pyStripRight (p : Char → Bool) (l : List Char) (c : Char)
    (h : c ∈ pyStripRight p l) : c ∈ l := by
  rw [← pyStripRight_append p l]
  exact List.mem_append_left _ h

/-- The head survives right-stripping (when anything survives). -/
theorem head_pyStripRight (p : Char → Bool) (l : List Char) (c : Char)
    (h : (pyStripRight p l).head? = some c) : l.head? = some c := by
  rw [← pyStripRight_append p l]
  rcases hs : pyStripRight p l with _ | ⟨c0, rest⟩
  · rw [hs] at h
    simp at h
  · rw [hs] at h
    simpa using h

/-- Characters of `dropWhile` are characters of the input. -/
theorem mem_dropWhile_sub (p : Char → Bool) (l : List Char) (c : Char)
    (h : c ∈ l.dropWhile p) : c ∈ l := by
  rw [← List.takeWhile_append_dropWhile p l]
  exact List.mem_append_right _ h

/-- Characters of a two-sided strip are characters of the input. -/
theorem mem_pyStrip (p : Char → Bool) (l : List Char) (c : Char)
    (h : c ∈ pyStrip p l) : c ∈ l :=
  mem_dropWhile_sub p l c (mem_pyStripRight p _ c h)

/-- The head of a two-sided strip never satisfies the strip predicate. -/
theorem head_pyStrip (p : Char → Bool) (l : List Char) (c : Char)
    (h : (pyStrip p l).head? = some c) : p c = false :=
  head_dropWhile_not p l c (head_pyStripRight p _ c h)

/-- Truncation preserves the head when the bound is positive. -/
theorem head_take_eq (n : Nat) (l : List Char) (h : 0 < n) :
    (l.take n).head? = l.head? := by
  cases l with
  | nil => simp
  | cons c rest =>
    cases n with
    | zero => omega
    | succ m => simp

/-- Unfolding of `sanitize_filename` on a non-empty suggestion. -/
theorem sanitize_filename_some (fs : String) (h : ¬ fs = "") :
    sanitize_filename (some fs) =
      (if (pyStrip stripSepChar (pySub ruleSepRun (fun _ => ['_'])
            (pySub ruleWS (fun _ => ['_'])
              (pySub ruleIllegal (fun _ => []) (pyStrip pyIsSpace fs.data))))).take
            MAX_FILENAME_LENGTH = []
       then "untitled_summary"
       else String.mk ((pyStrip stripSepChar (pySub ruleSepRun (fun _ => ['_'])
            (pySub ruleWS (fun _ => ['_'])
              (pySub ruleIllegal (fun _ => []) (pyStrip pyIsSpace fs.data))))).take
            MAX_FILENAME_LENGTH)) := by
  have he : sanitize_filename (some fs) =
      if fs = "" then "untitled_summary"
      else (if (pyStrip stripSepChar (pySub ruleSepRun (fun _ => ['_'])
            (pySub ruleWS (fun _ => ['_'])
              (pySub ruleIllegal (fun _ => []) (pyStrip pyIsSpace fs.data))))).take
            MAX_FILENAME_LENGTH = []
       then "untitled_summary"
       else String.mk ((pyStrip stripSepChar (pySub ruleSepRun (fun _ => ['_'])
            (pySub ruleWS (fun _ => ['_'])
              (pySub ruleIllegal (fun _ => []) (pyStrip pyIsSpace fs.data))))).take
            MAX_FILENAME_LENGTH)) := rfl
  rw [he, if_neg h]

/-- C4, counterexample: truncation to `MAX_FILENAME_LENGTH` happens AFTER
the separator strip, so a 51-character candidate whose 50th character is
an underscore sanitizes to a name with a TRAILING underscore — refuting
the no-trailing-separator part of the claim. -/
theorem claim_C4_counterexample :
    sanitize_filename (some "aaaaaaaaaaaaaaaaaaaaaaaaaaaaaaaaaaaaaaaaaaaaaaaaa_b") =
      "aaaaaaaaaaaaaaaaaaaaaaaaaaaaaaaaaaaaaaaaaaaaaaaaa_" ∧
    (sanitize_filename
        (some "aaaaaaaaaaaaaaaaaaaaaaaaaaaaaaaaaaaaaaaaaaaaaaaaa_b")).data.getLast? =
      some '_' := by decide

/-- Character-level facts about a truncated candidate transferred to the
final string (stated over an abstract character list so that unification
stays cheap). -/
theorem sanitize_take_spec (t5 : List Char)
    (hA : ∀ c ∈ t5, illegalFilenameChar c = false ∧ pyIsSpace c = false)
    (hB : ∀ c, t5.head? = some c → stripSepChar c = false)
    (h6 : ¬ t5.take MAX_FILENAME_LENGTH = []) :
    (String.mk (t5.take MAX_FILENAME_LENGTH)).length ≤ MAX_FILENAME_LENGTH ∧
    ((String.mk (t5.take MAX_FILENAME_LENGTH)).data.all
      fun c => !illegalFilenameChar c) = true ∧
    ((String.mk (t5.take MAX_FILENAME_LENGTH)).data.all fun c => !pyIsSpace c) = true ∧
    String.mk (t5.take MAX_FILENAME_LENGTH) ≠ "" ∧
    ((String.mk (t5.take MAX_FILENAME_LENGTH)).data.head?.all
      fun c => !stripSepChar c) = true := by
  refine ⟨List.length_take_le _ _, ?_, ?_, ?_, ?_⟩
  · rw [List.all_eq_true]
    intro c hc
    simpa using (hA c (List.mem_of_mem_take hc)).1
  · rw [List.all_eq_true]
    intro c hc
    simpa using (hA c (List.mem_of_mem_take hc)).2
  · intro hcon
    exact h6 (congrArg String.data hcon)
  · show ((t5.take MAX_FILENAME_LENGTH).head?.all fun c => !stripSepChar c) = true
    rw [head_take_eq MAX_FILENAME_LENGTH t5 (by decide)]
    rcases hh : t5.head? with _ | ⟨c⟩
    · rfl
    · simpa using hB c hh

/-- C4, amended: for every input (including `None` and `""`) the
sanitized result has length at most `MAX_FILENAME_LENGTH`, contains no
path-illegal character and no whitespace, is non-empty (the fallback
`"untitled_summary"` covers empty or fully-stripped candidates), and has
no LEADING separator; a trailing `_`/`-` can however be exposed by the
final truncation (see the counterexample). -/
theorem claim_C4_amended (s : Option String) :
    (sanitize_filename s).length ≤ MAX_FILENAME_LENGTH ∧
    ((sanitize_filename s).data.all fun c => !illegalFilenameChar c) = true ∧
    ((sanitize_filename s).data.all fun c => !pyIsSpace c) = true ∧
    sanitize_filename s ≠ "" ∧
    ((sanitize_filename s).data.head?.all fun c => !stripSepChar c) = true := by
  cases s with
  | none => decide
  | some fs =>
    by_cases hfs : fs = ""
    · subst hfs; decide
    · rw [sanitize_filename_some fs hfs]
      have hchain : ∀ c ∈ pyStrip stripSepChar (pySub ruleSepRun (fun _ => ['_'])
          (pySub ruleWS (fun _ => ['_'])
            (pySub ruleIllegal (fun _ => []) (pyStrip pyIsSpace fs.data)))),
          illegalFilenameChar c = false ∧ pyIsSpace c = false := by
        intro c hc
        have hc4 := mem_pyStrip stripSepChar _ c hc
        rcases subAuxN_chars_subset ruleSepRun ['_'] _ _ c hc4 with hc3 | hcu
        · refine ⟨?_, subAuxN_ws_clean _ _ (Nat.lt_succ_self _) c hc3⟩
          rcases subAuxN_chars_subset ruleWS ['_'] _ _ c hc3 with hc2 | hcu
          · exact subAuxN_illegal_clean _ _ (Nat.lt_succ_self _) c hc2
          · simp only [List.mem_singleton] at hcu
            subst hcu
            decide
        · simp only [List.mem_singleton] at hcu
          subst hcu
          exact ⟨by decide, by decide⟩
      have hhead : ∀ c, (pyStrip stripSepChar (pySub ruleSepRun (fun _ => ['_'])
          (pySub ruleWS (fun _ => ['_'])
            (pySub ruleIllegal (fun _ => []) (pyStrip pyIsSpace fs.data))))).head? =
            some c → stripSepChar c = false :=
        fun c hh => head_pyStrip stripSepChar _ c hh
      by_cases h6 : (pyStrip stripSepChar (pySub ruleSepRun (fun _ => ['_'])
            (pySub ruleWS (fun _ => ['_'])
              (pySub ruleIllegal (fun _ => []) (pyStrip pyIsSpace fs.data))))).take
            MAX_FILENAME_LENGTH = []
      · rw [if_pos h6]; decide
      · rw [if_neg h6]
        exact sanitize_take_spec _ hchain hhead h6
